import Mathlib

/-!
Verification of the TMDB ingestion pipeline (`src/extract_tmdb_movies.py`)
against its natural-language specification.

The script is embedded shallowly: each Python function becomes a Lean
definition over explicit inputs.  Network I/O is modelled by oracles
(functions from attempt index / page number / movie id to an outcome),
sleeps and outbound requests are recorded in an explicit event trace,
and Python exceptions become explicit error values.
-/

namespace TMDB

/-- Outcome of one HTTP GET attempt inside `_get_with_retries`:
either the request succeeds and the body parses (`success`),
or `response.raise_for_status()` raises `requests.HTTPError` with the
given status code (`httpError`, statuses in 400..599),
or a transport-level `requests.RequestException` occurs
(connection reset, timeout, ...). -/
inductive AttemptResult (α : Type) where
  | success (v : α)
  | httpError (status : Nat)
  | requestException
  deriving DecidableEq, Repr

/-- An exception propagating out of `_get_with_retries`. -/
inductive FetchError where
  | httpError (status : Nat)
  | requestException
  deriving DecidableEq, Repr

/-- What `_get_with_retries` yields to its caller: a parsed body (`ok`),
a raised exception (`error`), or — when the `for` loop body never runs,
i.e. `max_retries <= 0` — Python's implicit `return None` (`noneReturn`). -/
inductive RetriesOutcome (α : Type) where
  | ok (v : α)
  | error (e : FetchError)
  | noneReturn
  deriving DecidableEq, Repr

/-- The loop body of `_get_with_retries`, starting at attempt index
`attempt` (0-based, as `range(max_retries)` produces).  The oracle gives
the outcome of each attempt.  Returns the outcome together with the list
of backoff sleep durations (`2**attempt + 0.25` seconds), in order. -/
def getWithRetriesAux {α : Type} (oracle : Nat → AttemptResult α)
    (maxRetries : Nat) (attempt : Nat) : RetriesOutcome α × List ℚ :=
  if attempt < maxRetries then
    match oracle attempt with
    | .success v => (.ok v, [])
    | .httpError s =>
      -- `if e.response.status_code in range(400, 500): raise`
      if 400 ≤ s ∧ s < 500 then (.error (.httpError s), [])
      -- `if attempt == max_retries - 1: raise`
      else if attempt = maxRetries - 1 then (.error (.httpError s), [])
      else
        let wait : ℚ := 2 ^ attempt + 1/4
        let rest := getWithRetriesAux oracle maxRetries (attempt + 1)
        (rest.1, wait :: rest.2)
    | .requestException =>
      if attempt = maxRetries - 1 then (.error .requestException, [])
      else
        let wait : ℚ := 2 ^ attempt + 1/4
        let rest := getWithRetriesAux oracle maxRetries (attempt + 1)
        (rest.1, wait :: rest.2)
  else
    -- the `for` loop is exhausted: Python falls through and returns None
    (.noneReturn, [])
termination_by maxRetries - attempt

/-- Model of `_get_with_retries(url, params, max_retries)`: run the retry loop
from attempt 0.  The Python default for `max_retries` is 3. -/
def getWithRetries {α : Type} (oracle : Nat → AttemptResult α)
    (maxRetries : Nat) : RetriesOutcome α × List ℚ :=
  getWithRetriesAux oracle maxRetries 0

/-- A 5xx-class status is not in `range(400, 500)`. -/
theorem not_client_of_server {s : Nat} (h : 500 ≤ s) : ¬(400 ≤ s ∧ s < 500) := by
  omega

/-- An attempt outcome that the retry loop treats as transient
(retried rather than raised immediately): a 5xx `HTTPError` or a
transport-level `RequestException`. -/
def AttemptResult.isTransient {α : Type} : AttemptResult α → Bool
  | .success _ => false
  | .httpError s => !(400 ≤ s && s < 500)
  | .requestException => true

/-- The exception an attempt outcome raises, if it is a failure. -/
def AttemptResult.toError {α : Type} : AttemptResult α → Option FetchError
  | .success _ => none
  | .httpError s => some (.httpError s)
  | .requestException => some .requestException

/-- A transient failure on a non-final attempt sleeps `2^attempt + 0.25`
and retries at `attempt + 1`. -/
theorem getWithRetriesAux_transient_step {α : Type}
    (oracle : Nat → AttemptResult α) (maxRetries attempt : Nat)
    (hlt : attempt + 1 < maxRetries)
    (ht : (oracle attempt).isTransient = true) :
    getWithRetriesAux oracle maxRetries attempt =
      ((getWithRetriesAux oracle maxRetries (attempt + 1)).1,
        ((2 : ℚ) ^ attempt + 1/4) ::
          (getWithRetriesAux oracle maxRetries (attempt + 1)).2) := by
  have h0 : attempt < maxRetries := by omega
  have hne : ¬(attempt = maxRetries - 1) := by omega
  cases ho : oracle attempt with
  | success v => simp [AttemptResult.isTransient, ho] at ht
  | httpError s =>
    have hs : ¬(400 ≤ s ∧ s < 500) := by
      simp [AttemptResult.isTransient, ho] at ht
      omega
    rw [getWithRetriesAux]
    simp [h0, ho, hs, hne]
  | requestException =>
    rw [getWithRetriesAux]
    simp [h0, ho, hne]

/-- A failing final attempt raises its exception with no further sleep. -/
theorem getWithRetriesAux_last_fail {α : Type}
    (oracle : Nat → AttemptResult α) (maxRetries attempt : Nat) (e : FetchError)
    (hlast : attempt + 1 = maxRetries)
    (he : (oracle attempt).toError = some e) :
    getWithRetriesAux oracle maxRetries attempt = (.error e, []) := by
  subst hlast
  cases ho : oracle attempt with
  | success v => simp [AttemptResult.toError, ho] at he
  | httpError s =>
    simp [AttemptResult.toError, ho] at he
    rw [getWithRetriesAux]
    simp [ho, ← he]
  | requestException =>
    simp [AttemptResult.toError, ho] at he
    rw [getWithRetriesAux]
    simp [ho, ← he]

/-- A successful attempt returns the parsed body at once. -/
theorem getWithRetriesAux_success {α : Type}
    (oracle : Nat → AttemptResult α) (maxRetries attempt : Nat) (v : α)
    (h0 : attempt < maxRetries) (ho : oracle attempt = .success v) :
    getWithRetriesAux oracle maxRetries attempt = (.ok v, []) := by
  rw [getWithRetriesAux]
  simp [h0, ho]

/-- C2: with the default `max_retries = 3`, two 5xx failures followed by a
success yield exactly the sleeps `1.25` and `2.25` and the third attempt's
body; three transient failures in a row propagate the final failure after
the same two sleeps. -/
theorem backoff_two_5xx_then_success {α : Type}
    (oracle oracle' : Nat → AttemptResult α) (v : α) (s0 s1 : Nat) (e2 : FetchError)
    (hs0 : 500 ≤ s0) (hs1 : 500 ≤ s1)
    (h0 : oracle 0 = .httpError s0) (h1 : oracle 1 = .httpError s1)
    (h2 : oracle 2 = .success v)
    (ht0 : (oracle' 0).isTransient = true)
    (ht1 : (oracle' 1).isTransient = true)
    (he2 : (oracle' 2).toError = some e2) :
    getWithRetries oracle 3 = (.ok v, [5/4, 9/4]) ∧
    getWithRetries oracle' 3 = (.error e2, [5/4, 9/4]) := by
  constructor
  · have t0 : (oracle 0).isTransient = true := by
      simp [AttemptResult.isTransient, h0]; omega
    have t1 : (oracle 1).isTransient = true := by
      simp [AttemptResult.isTransient, h1]; omega
    rw [getWithRetries,
      getWithRetriesAux_transient_step oracle 3 0 (by omega) t0,
      getWithRetriesAux_transient_step oracle 3 1 (by omega) t1,
      getWithRetriesAux_success oracle 3 2 v (by omega) h2]
    norm_num
  · rw [getWithRetries,
      getWithRetriesAux_transient_step oracle' 3 0 (by omega) ht0,
      getWithRetriesAux_transient_step oracle' 3 1 (by omega) ht1,
      getWithRetriesAux_last_fail oracle' 3 2 e2 (by omega) he2]
    norm_num

/-- Witness for C2 at a concrete pair of oracles: 503, 503, success 42
versus 503, timeout, 500. -/
theorem backoff_two_5xx_then_success_witness :
    getWithRetries (fun n => if n < 2 then .httpError 503 else .success 42) 3
      = (.ok 42, [5/4, 9/4]) ∧
    getWithRetries (α := Nat)
      (fun n => if n = 0 then .httpError 503
        else if n = 1 then .requestException else .httpError 500) 3
      = (.error (.httpError 500), [5/4, 9/4]) :=
  backoff_two_5xx_then_success
    (fun n => if n < 2 then .httpError 503 else .success 42)
    (fun n => if n = 0 then .httpError 503
      else if n = 1 then .requestException else .httpError 500)
    42 503 503 (.httpError 500)
    (by omega) (by omega) (by simp) (by simp) (by simp)
    (by simp [AttemptResult.isTransient]) (by simp [AttemptResult.isTransient])
    (by simp [AttemptResult.toError])

/-- C3: a client-side (4xx) failure on the first attempt propagates
immediately — no sleep, no further attempt — for any positive attempt
budget. -/
theorem client_error_no_retry {α : Type}
    (oracle : Nat → AttemptResult α) (n s : Nat)
    (hs : 400 ≤ s) (hs' : s < 500) (hn : 1 ≤ n)
    (h0 : oracle 0 = .httpError s) :
    getWithRetries oracle n = (.error (.httpError s), []) := by
  have h : 0 < n := hn
  rw [getWithRetries, getWithRetriesAux]
  simp [h, h0, hs, hs']

/-- Witness for C3: a 404 on the first attempt with the default budget 3. -/
theorem client_error_no_retry_witness :
    getWithRetries (α := Nat) (fun _ => .httpError 404) 3
      = (.error (.httpError 404), []) :=
  client_error_no_retry (fun _ => .httpError 404) 3 404
    (by omega) (by omega) (by omega) (by simp)

/-- The retry loop never falls through once it has at least one attempt:
from any in-range attempt index the result is `ok` or `error`. -/
theorem getWithRetriesAux_ne_noneReturn {α : Type}
    (oracle : Nat → AttemptResult α) :
    ∀ fuel maxRetries attempt, maxRetries - attempt = fuel →
      attempt < maxRetries →
      (getWithRetriesAux oracle maxRetries attempt).1 ≠ .noneReturn := by
  intro fuel
  induction fuel with
  | zero => intro maxRetries attempt hf hlt; omega
  | succ f ih =>
    intro maxRetries attempt hf hlt
    rw [getWithRetriesAux]
    simp only [hlt, if_pos]
    cases ho : oracle attempt with
    | success v => simp
    | httpError s =>
      by_cases hc : 400 ≤ s ∧ s < 500
      · simp [hc]
      · by_cases hl : attempt = maxRetries - 1
        · simp [hc, hl]
        · simp only [hc, hl, if_false]
          exact ih maxRetries (attempt + 1) (by omega) (by omega)
    | requestException =>
      by_cases hl : attempt = maxRetries - 1
      · simp [hl]
      · simp only [hl, if_false]
        exact ih maxRetries (attempt + 1) (by omega) (by omega)

/-- C9: with a zero attempt budget the loop body never runs, no request is
issued (the result does not depend on the oracle), and the function
returns Python's `None` instead of a dict; with any positive budget it
always returns a dict or raises, never `None`. -/
theorem zero_attempts_returns_none {α : Type}
    (oracle : Nat → AttemptResult α) (n : Nat) (hn : 1 ≤ n) :
    getWithRetries oracle 0 = (.noneReturn, []) ∧
    (getWithRetries oracle n).1 ≠ .noneReturn := by
  constructor
  · rw [getWithRetries, getWithRetriesAux]; simp
  · exact getWithRetriesAux_ne_noneReturn oracle n n 0 (by omega) (by omega)

/-- Witness for C9 at a concrete oracle and budget 3. -/
theorem zero_attempts_returns_none_witness :
    getWithRetries (α := Nat) (fun _ => .success 7) 0 = (.noneReturn, []) ∧
    (getWithRetries (α := Nat) (fun _ => .success 7) 3).1 ≠ .noneReturn :=
  zero_attempts_returns_none (fun _ => .success 7) 3 (by omega)

/-! ## The pipeline: `fetch_movies`, `upload_to_s3`, `main`

The two endpoint helpers `get_popular_movies` and `get_movie_details`
wrap `_get_with_retries`; for the pipeline we abstract each call as an
oracle from its argument to an outcome: either a parsed payload or a
raised Python exception. -/

/-- A Python exception escaping a fetch call: `requests.HTTPError` with a
status, another `requests.RequestException`, or any other exception. -/
inductive PyError where
  | httpError (status : Nat)
  | requestError
  | otherError
  deriving DecidableEq, Repr

/-- Outcome of a call that either returns a value or raises. -/
inductive FetchResult (α : Type) where
  | ok (v : α)
  | raised (err : PyError)
  deriving DecidableEq, Repr

/-- Whether a call returned normally. -/
def FetchResult.isOk {α : Type} : FetchResult α → Bool
  | .ok _ => true
  | .raised _ => false

/-- One entry of the detail payload's `genres` array.  Both keys are
accessed with `g["name"]` / `g["id"]` (a missing key raises), so each is
optional here. -/
structure GenreEntry where
  name : Option String
  id : Option Int
  deriving DecidableEq, Repr

/-- The detail payload of `get_movie_details`.  `details["id"]` and
`details["title"]` are required accesses (raise when missing); every
other field is read with `.get`, so all fields are optional. -/
structure Detail where
  id : Option Int
  title : Option String
  release_date : Option String
  budget : Option Int
  revenue : Option Int
  popularity : Option ℚ
  vote_average : Option ℚ
  vote_count : Option Int
  runtime : Option Int
  genres : Option (List GenreEntry)
  original_language : Option String
  status : Option String
  deriving DecidableEq, Repr

/-- One summary item of a listing page; only `item.get("id")` is read. -/
structure ItemSummary where
  id : Option Int
  deriving DecidableEq, Repr

/-- A listing page: `popular.get("results", [])`. -/
structure Page where
  results : List ItemSummary
  deriving DecidableEq, Repr

/-- One retained output record, as appended to `movies`. -/
structure MovieRecord where
  movie_id : Int
  title : String
  release_date : Option String
  budget : Int
  revenue : Int
  popularity : Option ℚ
  vote_average : Option ℚ
  vote_count : Option Int
  runtime : Option Int
  genres : List String
  genre_ids : List Int
  original_language : Option String
  status : Option String
  ingested_at : String
  deriving DecidableEq, Repr

/-- A Python list comprehension `[f(x) for x in l]` where `f` may raise
on a missing key: `none` when any element raises. -/
def mapKeys {α β : Type} (f : α → Option β) : List α → Option (List β)
  | [] => some []
  | x :: xs =>
    match f x, mapKeys f xs with
    | some y, some ys => some (y :: ys)
    | _, _ => none

/-- Building the output dict from a detail payload (`movies.append({...})`
in `fetch_movies`).  `none` models a raised `KeyError` — `details["id"]`,
`details["title"]`, or a genre entry missing `"name"` or `"id"` — which
the per-item guard catches. -/
def buildMovie (details : Detail) (ingestedAt : String) : Option MovieRecord :=
  match details.id, details.title,
      mapKeys GenreEntry.name (details.genres.getD []),
      mapKeys GenreEntry.id (details.genres.getD []) with
  | some mid, some t, some names, some gids =>
    some
      { movie_id := mid
        title := t
        release_date := details.release_date
        budget := details.budget.getD 0
        revenue := details.revenue.getD 0
        popularity := details.popularity
        vote_average := details.vote_average
        vote_count := details.vote_count
        runtime := details.runtime
        genres := names
        genre_ids := gids
        original_language := details.original_language
        status := details.status
        ingested_at := ingestedAt }
  | _, _, _, _ => none

/-- The filter-then-project step on one fetched detail payload:
`continue` (drop) when `details.get("budget", 0) == 0 and
details.get("revenue", 0) == 0`, otherwise build the output record. -/
def considerDetail (details : Detail) (ingestedAt : String) : Option MovieRecord :=
  if details.budget.getD 0 = 0 ∧ details.revenue.getD 0 = 0 then none
  else buildMovie details ingestedAt

/-- The external world of one run: outcome of `get_popular_movies(page)`,
outcome of `get_movie_details(movie_id)`, and the UTC clock (indexed by
how many records have been built so far). -/
structure Env where
  pages : Nat → FetchResult Page
  details : Int → FetchResult Detail
  now : Nat → String

/-- Observable side effects of the walk, in order: an outbound listing
request, an outbound detail request, or a `time.sleep` of the given
duration in seconds. -/
inductive Ev where
  | fetchPage (page : Nat)
  | fetchDetail (movieId : Int)
  | sleep (secs : ℚ)
  deriving DecidableEq, Repr

/-- Is this event the fixed `time.sleep(0.25)` rate-limit delay? -/
def Ev.isQuarterSleep : Ev → Bool
  | .sleep t => t == 1/4
  | _ => false

/-- Is this event an outbound detail request? -/
def Ev.isFetchDetail : Ev → Bool
  | .fetchDetail _ => true
  | _ => false

/-- The body of the inner `for item in popular.get("results", [])` loop
for one item: skip silently when `item.get("id")` is `None` (before the
`try`, so no sleep); otherwise issue the detail fetch inside
`try/except/finally` — any raised exception is caught, a drop or build
failure yields no record, and the `finally: time.sleep(0.25)` always
runs.  `count` is `len(movies)` when the item is processed. -/
def processItem (env : Env) (count : Nat) (item : ItemSummary) :
    List Ev × Option MovieRecord :=
  match item.id with
  | none => ([], none)
  | some mid =>
    match env.details mid with
    | .raised _ => ([.fetchDetail mid, .sleep (1/4)], none)
    | .ok d => ([.fetchDetail mid, .sleep (1/4)], considerDetail d (env.now count))

/-- The inner loop over one page's items, appending kept records to the
accumulator `movies`. -/
def processPage (env : Env) (items : List ItemSummary)
    (movies : List MovieRecord) : List MovieRecord × List Ev :=
  match items with
  | [] => (movies, [])
  | item :: rest =>
    let step := processItem env movies.length item
    let movies' :=
      match step.2 with
      | some r => movies ++ [r]
      | none => movies
    let restRes := processPage env rest movies'
    (restRes.1, step.1 ++ restRes.2)

/-- The outer `for page in range(1, num_pages + 1)` loop of
`fetch_movies`, with `pagesLeft` iterations remaining and `page` the
current page number.  A listing-page fetch that raises is NOT guarded:
the exception propagates out of `fetch_movies` at once. -/
def fetchPagesAux (env : Env) :
    Nat → Nat → List MovieRecord → FetchResult (List MovieRecord) × List Ev
  | 0, _, movies => (.ok movies, [])
  | pagesLeft + 1, page, movies =>
    match env.pages page with
    | .raised e => (.raised e, [.fetchPage page])
    | .ok pg =>
      let pr := processPage env pg.results movies
      let restRes := fetchPagesAux env pagesLeft (page + 1) pr.1
      (restRes.1, .fetchPage page :: (pr.2 ++ restRes.2))

/-- Model of `fetch_movies(num_pages)`: walk pages 1..num_pages accumulating
retained records, together with the event trace of the run. -/
def fetchMovies (env : Env) (numPages : Nat) :
    FetchResult (List MovieRecord) × List Ev :=
  fetchPagesAux env numPages 1 []

/-! ## `upload_to_s3` and `main` -/

/-- A calendar instant in UTC, as `datetime.now(timezone.utc)` yields. -/
structure UTCInstant where
  year : Nat
  month : Nat
  day : Nat
  hour : Nat
  minute : Nat
  second : Nat
  deriving DecidableEq, Repr

/-- Two-digit zero padding, as strftime's `%m`, `%d`, `%H`, `%M`, `%S`. -/
def pad2 (n : Nat) : String :=
  if n < 10 then "0" ++ toString n else toString n

/-- The S3 key computed by `upload_to_s3`: both the `%Y-%m-%d` date and
the `%H-%M-%S` time come from one `datetime.now(timezone.utc)` value. -/
def s3KeyFor (t : UTCInstant) : String :=
  "raw/movies/" ++ toString t.year ++ "-" ++ pad2 t.month ++ "-" ++ pad2 t.day
    ++ "/movies_" ++ pad2 t.hour ++ "-" ++ pad2 t.minute ++ "-" ++ pad2 t.second
    ++ ".json"

/-- Model of `upload_to_s3(movies)`: compute the key from the single captured
instant `now`, attempt the `put_object` (the NDJSON body is the
serialization of `movies`, passed through opaquely), re-raise on failure,
and return the key on success. -/
def upload_to_s3 (now : UTCInstant)
    (putObject : String → List MovieRecord → Bool)
    (movies : List MovieRecord) : FetchResult String :=
  let s3Key := s3KeyFor now
  if putObject s3Key movies then .ok s3Key else .raised .otherError

/-- The configuration and collaborators of `main`. -/
structure MainEnv where
  apiKey : Option String
  env : Env
  numPages : Nat
  upload : List MovieRecord → FetchResult String

/-- How a run of `main` ends. -/
inductive RunResult where
  | configError
  | fetchError (e : PyError)
  | emptyNoUpload
  | uploaded (key : String)
  | uploadFailed (e : PyError)
  deriving DecidableEq, Repr

/-- Model of `main()`: missing/empty `TMDB_API_KEY` raises before any fetch; a
raised `fetch_movies` propagates; an empty result returns early with a
warning and NO upload; otherwise upload once.  The boolean records
whether the uploader was invoked. -/
def runMain (m : MainEnv) : RunResult × Bool :=
  if (m.apiKey.getD "").isEmpty then (.configError, false)
  else
    match (fetchMovies m.env m.numPages).1 with
    | .raised e => (.fetchError e, false)
    | .ok movies =>
      if movies.isEmpty then (.emptyNoUpload, false)
      else
        match m.upload movies with
        | .ok key => (.uploaded key, true)
        | .raised e => (.uploadFailed e, true)

/-! ## Lemmas about the per-item guard and the page walk -/

/-- An item with a usable id always produces exactly the trace
"one detail request, then the 0.25 s rate-limit sleep", on every path. -/
theorem processItem_trace (env : Env) (count : Nat) (item : ItemSummary)
    (mid : Int) (h : item.id = some mid) :
    (processItem env count item).1 = [.fetchDetail mid, .sleep (1/4)] := by
  rw [processItem, h]
  cases hd : env.details mid <;> simp [hd]

/-- An item with no id is skipped before the `try`: no trace, no record. -/
theorem processItem_noId (env : Env) (count : Nat) (item : ItemSummary)
    (h : item.id = none) : processItem env count item = ([], none) := by
  rw [processItem, h]

/-- Per-item count of rate-limit sleeps: one iff the item has an id. -/
theorem processItem_count_sleeps (env : Env) (count : Nat)
    (item : ItemSummary) :
    (processItem env count item).1.countP Ev.isQuarterSleep
      = if item.id.isSome then 1 else 0 := by
  cases h : item.id with
  | none => rw [processItem_noId env count item h]; simp
  | some mid =>
    rw [processItem_trace env count item mid h]
    simp [List.countP_cons, Ev.isQuarterSleep]

/-- Per-item count of detail requests: one iff the item has an id. -/
theorem processItem_count_details (env : Env) (count : Nat)
    (item : ItemSummary) :
    (processItem env count item).1.countP Ev.isFetchDetail
      = if item.id.isSome then 1 else 0 := by
  cases h : item.id with
  | none => rw [processItem_noId env count item h]; simp
  | some mid =>
    rw [processItem_trace env count item mid h]
    simp [List.countP_cons, Ev.isQuarterSleep, Ev.isFetchDetail]

/-- Page-level count of rate-limit sleeps = number of items with an id. -/
theorem processPage_count_sleeps (env : Env) (items : List ItemSummary) :
    ∀ movies : List MovieRecord,
      (processPage env items movies).2.countP Ev.isQuarterSleep
        = items.countP (fun it => it.id.isSome) := by
  induction items with
  | nil => intro movies; simp [processPage]
  | cons item rest ih =>
    intro movies
    rw [processPage]
    simp only [List.countP_append, List.countP_cons]
    rw [processItem_count_sleeps, ih]
    cases item.id <;> simp <;> omega

/-- Page-level count of detail requests = number of items with an id. -/
theorem processPage_count_details (env : Env) (items : List ItemSummary) :
    ∀ movies : List MovieRecord,
      (processPage env items movies).2.countP Ev.isFetchDetail
        = items.countP (fun it => it.id.isSome) := by
  induction items with
  | nil => intro movies; simp [processPage]
  | cons item rest ih =>
    intro movies
    rw [processPage]
    simp only [List.countP_append, List.countP_cons]
    rw [processItem_count_details, ih]
    cases item.id <;> simp <;> omega

/-- Characterization of `.isOk`. -/
theorem FetchResult.isOk_iff {α : Type} (x : FetchResult α) :
    x.isOk = true ↔ ∃ v, x = .ok v := by
  cases x <;> simp [FetchResult.isOk]

/-- If every listing page in the window fetches OK, the walk returns
normally — whatever the per-item detail outcomes are. -/
theorem fetchPagesAux_total (env : Env) :
    ∀ (pagesLeft start : Nat) (movies : List MovieRecord),
      (∀ p, start ≤ p → p < start + pagesLeft → (env.pages p).isOk = true) →
      ∃ out, (fetchPagesAux env pagesLeft start movies).1 = .ok out := by
  intro pagesLeft
  induction pagesLeft with
  | zero => intro start movies _; exact ⟨movies, rfl⟩
  | succ left ih =>
    intro start movies hok
    have h0 : (env.pages start).isOk = true := hok start (by omega) (by omega)
    obtain ⟨pg, hpg⟩ := (FetchResult.isOk_iff (env.pages start)).mp h0
    rw [fetchPagesAux]
    simp only [hpg]
    exact ih (start + 1) (processPage env pg.results movies).1
      (fun p h1 h2 => hok p (by omega) (by omega))

/-- C4: one bad item never aborts anything — if every listing page
fetches OK the whole run returns normally regardless of detail-level
failures, and every item with an id (and only those) yields exactly one
detail request, so a page with one good and one id-less item yields
exactly one detail attempt. -/
theorem item_failures_never_abort :
    (∀ (env : Env) (n : Nat),
      (∀ p, 1 ≤ p → p ≤ n → (env.pages p).isOk = true) →
      ∃ out, (fetchMovies env n).1 = .ok out) ∧
    (∀ (env : Env) (items : List ItemSummary) (movies : List MovieRecord),
      (processPage env items movies).2.countP Ev.isFetchDetail
        = items.countP (fun it => it.id.isSome)) := by
  constructor
  · intro env n hok
    exact fetchPagesAux_total env n 1 []
      (fun p h1 h2 => hok p h1 (by omega))
  · intro env items movies
    exact processPage_count_details env items movies

/-- C5: the fixed 0.25 s rate-limit sleep fires once per item with a
usable id — after the detail attempt, on success, filtered-out and
failure paths alike — and for no other item. -/
theorem rate_limit_sleep_every_item :
    (∀ (env : Env) (count : Nat) (item : ItemSummary) (mid : Int),
      item.id = some mid →
      (processItem env count item).1 = [.fetchDetail mid, .sleep (1/4)]) ∧
    (∀ (env : Env) (items : List ItemSummary) (movies : List MovieRecord),
      (processPage env items movies).2.countP Ev.isQuarterSleep
        = items.countP (fun it => it.id.isSome)) := by
  constructor
  · exact processItem_trace
  · intro env items movies
    exact processPage_count_sleeps env items movies

/-- The per-item loop never issues a listing-page request. -/
theorem processPage_no_fetchPage (env : Env) (items : List ItemSummary) :
    ∀ (movies : List MovieRecord) (q : Nat),
      Ev.fetchPage q ∉ (processPage env items movies).2 := by
  induction items with
  | nil => intro movies q; simp [processPage]
  | cons item rest ih =>
    intro movies q
    rw [processPage]
    simp only [List.mem_append]
    push_neg
    refine ⟨?_, ih _ q⟩
    cases h : item.id with
    | none => rw [processItem_noId env movies.length item h]; simp
    | some mid => rw [processItem_trace env movies.length item mid h]; simp

/-- If pages before `p` fetch OK and page `p` raises, the walk raises
that very error, and no page after `p` is ever requested. -/
theorem fetchPagesAux_raise (env : Env) :
    ∀ (pagesLeft start : Nat) (movies : List MovieRecord) (p : Nat)
      (e : PyError),
      start ≤ p → p < start + pagesLeft →
      (∀ q, start ≤ q → q < p → (env.pages q).isOk = true) →
      env.pages p = .raised e →
      (fetchPagesAux env pagesLeft start movies).1 = .raised e ∧
      ∀ q, Ev.fetchPage q ∈ (fetchPagesAux env pagesLeft start movies).2 →
        q ≤ p := by
  intro pagesLeft
  induction pagesLeft with
  | zero => intro start movies p e h1 h2; omega
  | succ left ih =>
    intro start movies p e h1 h2 hok he
    by_cases hsp : start = p
    · subst hsp
      rw [fetchPagesAux]
      simp only [he]
      constructor
      · trivial
      · intro q hq
        simp only [List.mem_singleton] at hq
        injection hq with h
        omega
    · have h0 : (env.pages start).isOk = true := hok start (by omega) (by omega)
      obtain ⟨pg, hpg⟩ := (FetchResult.isOk_iff (env.pages start)).mp h0
      rw [fetchPagesAux]
      simp only [hpg]
      have hrec := ih (start + 1) (processPage env pg.results movies).1 p e
        (by omega) (by omega) (fun q hq1 hq2 => hok q (by omega) hq2) he
      refine ⟨hrec.1, ?_⟩
      intro q hq
      simp only [List.mem_cons, List.mem_append] at hq
      rcases hq with hq | hq | hq
      · injection hq with h; omega
      · exact absurd hq (processPage_no_fetchPage env pg.results movies q)
      · exact hrec.2 q hq

/-- C6: a listing-page fetch failure is unguarded — it propagates out of
`fetch_movies` as that same exception and the walk stops: no later page
is requested. -/
theorem page_failure_propagates (env : Env) (n p : Nat) (e : PyError)
    (h1 : 1 ≤ p) (h2 : p ≤ n)
    (hok : ∀ q, 1 ≤ q → q < p → (env.pages q).isOk = true)
    (he : env.pages p = .raised e) :
    (fetchMovies env n).1 = .raised e ∧
    ∀ q, Ev.fetchPage q ∈ (fetchMovies env n).2 → q ≤ p :=
  fetchPagesAux_raise env n 1 [] p e h1 (by omega) hok he

/-! ## Lemmas about the filter and the accumulated batch -/

/-- Under an all-zero-financials detail oracle no item yields a record. -/
theorem processItem_zeroFin (env : Env)
    (hzero : ∀ mid d, env.details mid = .ok d →
      d.budget.getD 0 = 0 ∧ d.revenue.getD 0 = 0)
    (count : Nat) (item : ItemSummary) :
    (processItem env count item).2 = none := by
  cases h : item.id with
  | none => rw [processItem_noId env count item h]
  | some mid =>
    rw [processItem, h]
    cases hd : env.details mid with
    | raised e => simp [hd]
    | ok d =>
      have hz := hzero mid d hd
      simp [hd, considerDetail, hz.1, hz.2]

/-- Under an all-zero-financials detail oracle a page adds no records. -/
theorem processPage_zeroFin (env : Env)
    (hzero : ∀ mid d, env.details mid = .ok d →
      d.budget.getD 0 = 0 ∧ d.revenue.getD 0 = 0)
    (items : List ItemSummary) :
    ∀ movies : List MovieRecord,
      (processPage env items movies).1 = movies := by
  induction items with
  | nil => intro movies; rw [processPage]
  | cons item rest ih =>
    intro movies
    rw [processPage]
    simp only [processItem_zeroFin env hzero movies.length item]
    exact ih movies

/-- Under an all-zero-financials detail oracle a normally-returning walk
returns exactly its accumulator. -/
theorem fetchPagesAux_zeroFin (env : Env)
    (hzero : ∀ mid d, env.details mid = .ok d →
      d.budget.getD 0 = 0 ∧ d.revenue.getD 0 = 0) :
    ∀ (pagesLeft start : Nat) (movies out : List MovieRecord)
      (evs : List Ev),
      fetchPagesAux env pagesLeft start movies = (.ok out, evs) →
      out = movies := by
  intro pagesLeft
  induction pagesLeft with
  | zero =>
    intro start movies out evs h
    rw [fetchPagesAux] at h
    injection h with h1 h2
    injection h1 with h1
    exact h1.symm
  | succ left ih =>
    intro start movies out evs h
    rw [fetchPagesAux] at h
    cases hpg : env.pages start with
    | raised e => rw [hpg] at h; simp at h
    | ok pg =>
      rw [hpg] at h
      simp only [Prod.ext_iff] at h
      have hpair :
          fetchPagesAux env left (start + 1)
            (processPage env pg.results movies).1
          = (.ok out,
            (fetchPagesAux env left (start + 1)
              (processPage env pg.results movies).1).2) := by
        rw [← h.1]
      have hout := ih (start + 1) (processPage env pg.results movies).1 out
        _ hpair
      rw [hout, processPage_zeroFin env hzero]

/-- A record produced by the per-item guard comes from `considerDetail`
on some fetched detail payload. -/
theorem processItem_some (env : Env) (count : Nat) (item : ItemSummary)
    (r : MovieRecord) (h : (processItem env count item).2 = some r) :
    ∃ (d : Detail) (ts : String), considerDetail d ts = some r := by
  cases hid : item.id with
  | none => rw [processItem_noId env count item hid] at h; simp at h
  | some mid =>
    rw [processItem, hid] at h
    simp only at h
    cases hd : env.details mid with
    | raised e => rw [hd] at h; simp at h
    | ok d =>
      rw [hd] at h
      exact ⟨d, env.now count, h⟩

/-- Everything the inner loop accumulates beyond its input batch comes
from `considerDetail`. -/
theorem mem_processPage (env : Env) (items : List ItemSummary) :
    ∀ (movies : List MovieRecord) (r : MovieRecord),
      r ∈ (processPage env items movies).1 →
      r ∈ movies ∨ ∃ (d : Detail) (ts : String), considerDetail d ts = some r := by
  induction items with
  | nil => intro movies r hr; rw [processPage] at hr; exact Or.inl hr
  | cons item rest ih =>
    intro movies r hr
    rw [processPage] at hr
    simp only at hr
    cases hstep : (processItem env movies.length item).2 with
    | none =>
      rw [hstep] at hr
      exact ih movies r hr
    | some r' =>
      rw [hstep] at hr
      rcases ih (movies ++ [r']) r hr with hmem | hex
      · rcases List.mem_append.mp hmem with hmem | hmem
        · exact Or.inl hmem
        · rw [List.mem_singleton] at hmem
          subst hmem
          exact Or.inr (processItem_some env movies.length item r hstep)
      · exact Or.inr hex

/-- Everything a normally-returning walk returns beyond its accumulator
comes from `considerDetail`. -/
theorem mem_fetchPagesAux (env : Env) :
    ∀ (pagesLeft start : Nat) (movies out : List MovieRecord),
      (fetchPagesAux env pagesLeft start movies).1 = .ok out →
      ∀ r ∈ out, r ∈ movies ∨
        ∃ (d : Detail) (ts : String), considerDetail d ts = some r := by
  intro pagesLeft
  induction pagesLeft with
  | zero =>
    intro start movies out h r hr
    rw [fetchPagesAux] at h
    injection h with h
    subst h
    exact Or.inl hr
  | succ left ih =>
    intro start movies out h r hr
    rw [fetchPagesAux] at h
    cases hpg : env.pages start with
    | raised e => rw [hpg] at h; simp at h
    | ok pg =>
      rw [hpg] at h
      simp only at h
      rcases ih (start + 1) (processPage env pg.results movies).1 out h r hr
        with hmem | hex
      · exact mem_processPage env pg.results movies r hmem
      · exact Or.inr hex

/-- Every record of the output batch comes from `considerDetail` on some
fetched detail payload. -/
theorem mem_fetchMovies (env : Env) (n : Nat) (out : List MovieRecord)
    (h : (fetchMovies env n).1 = .ok out) (r : MovieRecord) (hr : r ∈ out) :
    ∃ (d : Detail) (ts : String), considerDetail d ts = some r := by
  rcases mem_fetchPagesAux env n 1 [] out h r hr with hmem | hex
  · simp at hmem
  · exact hex

/-- The fields a successful projection copies out of the payload. -/
theorem buildMovie_fields (d : Detail) (ts : String) (r : MovieRecord)
    (h : buildMovie d ts = some r) :
    r.budget = d.budget.getD 0 ∧ r.revenue = d.revenue.getD 0 ∧
    mapKeys GenreEntry.name (d.genres.getD []) = some r.genres ∧
    mapKeys GenreEntry.id (d.genres.getD []) = some r.genre_ids := by
  unfold buildMovie at h
  split at h
  · injection h with h
    subst h
    refine ⟨rfl, rfl, ?_, ?_⟩ <;> simp_all
  · simp at h

/-- A retained record passed the budget/revenue filter. -/
theorem considerDetail_some (d : Detail) (ts : String) (r : MovieRecord)
    (h : considerDetail d ts = some r) :
    buildMovie d ts = some r ∧
    ¬(d.budget.getD 0 = 0 ∧ d.revenue.getD 0 = 0) := by
  unfold considerDetail at h
  split at h
  · simp at h
  · exact ⟨h, by assumption⟩

/-- C7: a walk that retains zero records short-circuits `main` before the
upload — the uploader is never invoked and the run ends successfully —
and in particular the walk retains zero records whenever every
successfully fetched detail payload has budget 0 and revenue 0. -/
theorem empty_run_no_upload :
    (∀ (m : MainEnv),
      (m.apiKey.getD "").isEmpty = false →
      (fetchMovies m.env m.numPages).1 = .ok [] →
      runMain m = (.emptyNoUpload, false)) ∧
    (∀ (env : Env) (n : Nat) (out : List MovieRecord) (evs : List Ev),
      (∀ mid d, env.details mid = .ok d →
        d.budget.getD 0 = 0 ∧ d.revenue.getD 0 = 0) →
      fetchMovies env n = (.ok out, evs) → out = []) := by
  constructor
  · intro m hkey hfetch
    rw [runMain, hkey]
    simp only [Bool.false_eq_true, if_false, hfetch]
    rfl
  · intro env n out evs hzero hrun
    exact fetchPagesAux_zeroFin env hzero n 1 [] out evs hrun


/-- The map `mapKeys` succeeds when every element has the key. -/
theorem mapKeys_isSome {α β : Type} (f : α → Option β) :
    ∀ l : List α, (∀ x ∈ l, (f x).isSome = true) →
      (mapKeys f l).isSome = true := by
  intro l
  induction l with
  | nil => intro _; rfl
  | cons x xs ih =>
    intro hall
    obtain ⟨y, hy⟩ := Option.isSome_iff_exists.mp (hall x (by simp))
    obtain ⟨ys, hys⟩ := Option.isSome_iff_exists.mp
      (ih (fun z hz => hall z (by simp [hz])))
    rw [mapKeys, hy, hys]
    rfl

/-- The map `mapKeys` preserves length. -/
theorem mapKeys_length {α β : Type} (f : α → Option β) :
    ∀ (l : List α) (ys : List β), mapKeys f l = some ys →
      ys.length = l.length := by
  intro l
  induction l with
  | nil =>
    intro ys h
    rw [mapKeys] at h
    injection h with h
    subst h
    rfl
  | cons x xs ih =>
    intro ys h
    rw [mapKeys] at h
    cases hy : f x with
    | none => rw [hy] at h; simp at h
    | some y =>
      rw [hy] at h
      cases hys : mapKeys f xs with
      | none => rw [hys] at h; simp at h
      | some ys' =>
        rw [hys] at h
        injection h with h
        subst h
        simp [ih ys' hys]

/-- The map `mapKeys` is index-aligned with its input. -/
theorem mapKeys_getElem {α β : Type} (f : α → Option β) :
    ∀ (l : List α) (ys : List β), mapKeys f l = some ys →
      ∀ (i : Nat) (x : α), l[i]? = some x → ys[i]? = f x := by
  intro l
  induction l with
  | nil => intro ys h i x hx; simp at hx
  | cons z xs ih =>
    intro ys h i x hx
    rw [mapKeys] at h
    cases hy : f z with
    | none => rw [hy] at h; simp at h
    | some y =>
      rw [hy] at h
      cases hys : mapKeys f xs with
      | none => rw [hys] at h; simp at h
      | some ys' =>
        rw [hys] at h
        injection h with h
        subst h
        cases i with
        | zero =>
          simp at hx
          subst hx
          simp [hy]
        | succ i =>
          simp only [List.getElem?_cons_succ] at hx ⊢
          exact ih ys' hys i x hx

/-- A detail payload on which the projection cannot raise: it carries
the required `id` and `title` keys and every genre entry carries both
`name` and `id`. -/
def WellFormedDetail (d : Detail) : Prop :=
  d.id.isSome = true ∧ d.title.isSome = true ∧
    ∀ g ∈ d.genres.getD [], g.name.isSome = true ∧ g.id.isSome = true

/-- Wellformedness is checkable on concrete payloads. -/
instance (d : Detail) : Decidable (WellFormedDetail d) := by
  unfold WellFormedDetail
  infer_instance

/-- The projection succeeds on every well-formed payload. -/
theorem buildMovie_isSome (d : Detail) (ts : String)
    (h : WellFormedDetail d) : (buildMovie d ts).isSome = true := by
  obtain ⟨hid, htitle, hg⟩ := h
  obtain ⟨mid, hmid⟩ := Option.isSome_iff_exists.mp hid
  obtain ⟨t, ht⟩ := Option.isSome_iff_exists.mp htitle
  obtain ⟨names, hnames⟩ := Option.isSome_iff_exists.mp
    (mapKeys_isSome GenreEntry.name (d.genres.getD [])
      (fun g hmem => (hg g hmem).1))
  obtain ⟨gids, hgids⟩ := Option.isSome_iff_exists.mp
    (mapKeys_isSome GenreEntry.id (d.genres.getD [])
      (fun g hmem => (hg g hmem).2))
  rw [buildMovie, hmid, ht, hnames, hgids]
  rfl

/-- C1 (amended): for a well-formed detail payload the filter/projection
step retains a record iff budget or revenue is nonzero (absent values
counting as 0); and every record of a run's output batch has nonzero
budget or nonzero revenue. -/
theorem retained_iff_financial :
    (∀ (d : Detail) (ts : String), WellFormedDetail d →
      ((considerDetail d ts).isSome = true ↔
        (d.budget.getD 0 ≠ 0 ∨ d.revenue.getD 0 ≠ 0))) ∧
    (∀ (env : Env) (n : Nat) (out : List MovieRecord) (r : MovieRecord),
      (fetchMovies env n).1 = .ok out → r ∈ out →
      (r.budget ≠ 0 ∨ r.revenue ≠ 0)) := by
  constructor
  · intro d ts hwf
    by_cases hz : d.budget.getD 0 = 0 ∧ d.revenue.getD 0 = 0
    · rw [considerDetail, if_pos hz]
      simp only [Option.isSome_none, Bool.false_eq_true, false_iff]
      push_neg
      exact hz
    · rw [considerDetail, if_neg hz]
      rw [Classical.not_and_iff_or_not_not] at hz
      exact ⟨fun _ => hz, fun _ => buildMovie_isSome d ts hwf⟩
  · intro env n out r hrun hr
    obtain ⟨d, ts, hcd⟩ := mem_fetchMovies env n out hrun r hr
    obtain ⟨hbuild, hfilter⟩ := considerDetail_some d ts r hcd
    obtain ⟨hb, hv, -, -⟩ := buildMovie_fields d ts r hbuild
    rw [hb, hv]
    rw [Classical.not_and_iff_or_not_not] at hfilter
    exact hfilter

/-- C10: every record of a run's output batch has `genres` and
`genre_ids` of equal length, projected index-aligned and in order from
the genre entries of the detail payload it was built from. -/
theorem genres_aligned (env : Env) (n : Nat) (out : List MovieRecord)
    (r : MovieRecord) (hrun : (fetchMovies env n).1 = .ok out)
    (hr : r ∈ out) :
    r.genres.length = r.genre_ids.length ∧
    ∃ (d : Detail) (ts : String), considerDetail d ts = some r ∧
      r.genres.length = (d.genres.getD []).length ∧
      ∀ (i : Nat) (g : GenreEntry), (d.genres.getD [])[i]? = some g →
        r.genres[i]? = g.name ∧ r.genre_ids[i]? = g.id := by
  obtain ⟨d, ts, hcd⟩ := mem_fetchMovies env n out hrun r hr
  obtain ⟨hbuild, -⟩ := considerDetail_some d ts r hcd
  obtain ⟨-, -, hnames, hgids⟩ := buildMovie_fields d ts r hbuild
  have hlen1 := mapKeys_length GenreEntry.name (d.genres.getD []) r.genres hnames
  have hlen2 := mapKeys_length GenreEntry.id (d.genres.getD []) r.genre_ids hgids
  refine ⟨by omega, d, ts, hcd, hlen1, ?_⟩
  intro i g hg
  exact ⟨mapKeys_getElem GenreEntry.name (d.genres.getD []) r.genres hnames i g hg,
    mapKeys_getElem GenreEntry.id (d.genres.getD []) r.genre_ids hgids i g hg⟩

/-! ## Concrete scenarios -/

/-- A fixed ISO-8601 UTC timestamp used in concrete runs. -/
def demoTs : String := "2024-01-01T00:00:00+00:00"

/-- A well-formed detail payload with nonzero budget. -/
def wfDetail : Detail :=
  { id := some 1, title := some ("A"), release_date := none,
    budget := some 100, revenue := some 0, popularity := none,
    vote_average := none, vote_count := none, runtime := none,
    genres := some [{ name := some ("Drama"), id := some 18 }],
    original_language := none, status := none }

/-- The same payload with the required `title` key missing. -/
def noTitleDetail : Detail := { wfDetail with title := none }

/-- A payload whose financial fields are zero / absent. -/
def zeroDetail : Detail := { wfDetail with budget := some 0, revenue := none }

/-- The record the pipeline builds from `wfDetail`. -/
def demoRecord : MovieRecord :=
  { movie_id := 1, title := "A", release_date := none,
    budget := 100, revenue := 0, popularity := none,
    vote_average := none, vote_count := none, runtime := none,
    genres := ["Drama"], genre_ids := [18], original_language := none,
    status := none, ingested_at := demoTs }

/-- One listing item with a usable id, one without. -/
def mixedItems : List ItemSummary := [{ id := some 7 }, { id := none }]

/-- The item of `mixedItems` that carries an id. -/
def goodItem : ItemSummary := { id := some 7 }

/-- Happy path: one page, one good item, one id-less item. -/
def demoEnv : Env :=
  { pages := fun _ => .ok { results := [{ id := some 1 }, { id := none }] }
    details := fun _ => .ok wfDetail
    now := fun _ => demoTs }

/-- One page whose only item has a payload missing `title`. -/
def cxEnv : Env :=
  { pages := fun _ => .ok { results := [{ id := some 1 }] }
    details := fun _ => .ok noTitleDetail
    now := fun _ => demoTs }

/-- Every detail fetch raises a 404; listing pages are fine. -/
def failEnv : Env :=
  { pages := fun _ => .ok { results := mixedItems }
    details := fun _ => .raised (.httpError 404)
    now := fun _ => demoTs }

/-- Page 1 is fine and empty; every later listing page raises a 500. -/
def abortEnv : Env :=
  { pages := fun p => if p = 1 then .ok { results := [] }
      else .raised (.httpError 500)
    details := fun _ => .raised .otherError
    now := fun _ => demoTs }

/-- Every detail payload has zero budget and revenue. -/
def zeroEnv : Env :=
  { pages := fun _ => .ok { results := [{ id := some 1 }] }
    details := fun _ => .ok zeroDetail
    now := fun _ => demoTs }

/-- A full `main` configuration over `zeroEnv`, with an uploader that
would fail loudly if it were ever invoked. -/
def zeroMainEnv : MainEnv :=
  { apiKey := some ("k"), env := zeroEnv, numPages := 1,
    upload := fun _ => .raised .otherError }

/-- Witness for C4: with all listing pages OK and every detail fetch
raising a 404, the run still returns normally, and the mixed page yields
exactly one detail attempt. -/
theorem item_failures_never_abort_witness :
    (∃ out, (fetchMovies failEnv 2).1 = .ok out) ∧
    (processPage failEnv mixedItems []).2.countP Ev.isFetchDetail = 1 :=
  ⟨item_failures_never_abort.1 failEnv 2 (fun p h1 h2 => rfl),
   (item_failures_never_abort.2 failEnv mixedItems []).trans (by decide)⟩

/-- Witness for C5: the good item's trace is exactly one detail request
followed by the 0.25 s sleep, and the mixed page sleeps exactly once. -/
theorem rate_limit_sleep_every_item_witness :
    (processItem failEnv 0 goodItem).1 = [.fetchDetail 7, .sleep (1/4)] ∧
    (processPage failEnv mixedItems []).2.countP Ev.isQuarterSleep = 1 :=
  ⟨rate_limit_sleep_every_item.1 failEnv 0 goodItem 7 rfl,
   (rate_limit_sleep_every_item.2 failEnv mixedItems []).trans (by decide)⟩

/-- Witness for C6: the 500 raised by listing page 2 propagates out of
a 5-page walk and no page beyond 2 is requested. -/
theorem page_failure_propagates_witness :
    (fetchMovies abortEnv 5).1 = .raised (.httpError 500) ∧
    ∀ q, Ev.fetchPage q ∈ (fetchMovies abortEnv 5).2 → q ≤ 2 :=
  page_failure_propagates abortEnv 5 2 (.httpError 500) (by omega) (by omega)
    (fun q h1 h2 => by
      have hq : q = 1 := by omega
      subst hq
      rfl)
    (by rfl)

/-- Witness for C7: with every payload financially zero, `main` ends in
the empty-result branch and the uploader is never invoked. -/
theorem empty_run_no_upload_witness :
    runMain zeroMainEnv = (.emptyNoUpload, false) :=
  empty_run_no_upload.1 zeroMainEnv (by rfl) (by decide)

/-- C1 as stated is refuted by the code: this processed detail record
has nonzero budget, yet the output batch is empty, because the payload
lacks the required `title` key and the per-item guard swallows the
`KeyError`. -/
theorem retained_iff_financial_cx :
    noTitleDetail.budget.getD 0 ≠ 0 ∧
    cxEnv.details 1 = .ok noTitleDetail ∧
    (fetchMovies cxEnv 1).1 = .ok [] := by decide

/-- Witness for C1 (amended) on the happy-path run. -/
theorem retained_iff_financial_witness :
    ((considerDetail wfDetail demoTs).isSome = true ↔
      (wfDetail.budget.getD 0 ≠ 0 ∨ wfDetail.revenue.getD 0 ≠ 0)) ∧
    (demoRecord.budget ≠ 0 ∨ demoRecord.revenue ≠ 0) :=
  ⟨retained_iff_financial.1 wfDetail demoTs (by decide),
   retained_iff_financial.2 demoEnv 1 [demoRecord] demoRecord (by decide)
     (by decide)⟩

/-- Witness for C10 on the happy-path run. -/
theorem genres_aligned_witness :
    demoRecord.genres.length = demoRecord.genre_ids.length ∧
    ∃ (d : Detail) (ts : String), considerDetail d ts = some demoRecord ∧
      demoRecord.genres.length = (d.genres.getD []).length ∧
      ∀ (i : Nat) (g : GenreEntry), (d.genres.getD [])[i]? = some g →
        demoRecord.genres[i]? = g.name ∧ demoRecord.genre_ids[i]? = g.id :=
  genres_aligned demoEnv 1 [demoRecord] demoRecord (by decide) (by decide)

/-- The UTC instant of the spec's key-format scenario. -/
def specInstant : UTCInstant :=
  { year := 2024, month := 3, day := 7, hour := 8, minute := 15,
    second := 42 }

/-- C8: the storage key is derived entirely from the single UTC instant
captured at upload start, as `raw/movies/YYYY-MM-DD/movies_HH-MM-SS.json`,
and a successful upload returns exactly that key; at
2024-03-07T08:15:42 UTC the key is the one the spec gives. -/
theorem upload_key_format :
    (∀ (t : UTCInstant) (put : String → List MovieRecord → Bool)
      (movies : List MovieRecord),
      put (s3KeyFor t) movies = true →
      upload_to_s3 t put movies = .ok (s3KeyFor t)) ∧
    s3KeyFor specInstant = "raw/movies/2024-03-07/movies_08-15-42.json" := by
  constructor
  · intro t put movies hput
    rw [upload_to_s3]
    simp [hput]
  · rfl

/-- Witness for C8: an upload whose storage write succeeds. -/
theorem upload_key_format_witness :
    upload_to_s3 specInstant (fun _ _ => true) []
      = .ok (s3KeyFor specInstant) :=
  upload_key_format.1 specInstant (fun _ _ => true) [] rfl

end TMDB
